import Mathlib

/-!
# Verification of the LazyDev UI undo/redo history core

Shallow embedding of the state-management core of the theme/landing-page
builder (`App` component, `geminiService.ts`).  React `useState` pieces
(`theme`, `layout`, `history`) become fields of an explicit `AppState`;
the `JSON.parse(JSON.stringify(...))` deep copies become plain value
copies (Lean values are immutable, so a value copy is exactly an
independent deep copy); the `Math.random()` id generation is passed in
as an explicit id supply.  Enumerated string unions (`ThemeStyle`, the
section `type` field) are kept as `String`, matching the runtime values
that the import and AI paths can actually inject.
-/

/-- `ThemeConfig` from `types.ts`: primary color, border radius token,
style preset tag, dark-mode flag and font family. -/
structure ThemeConfig where
  primaryColor : String
  borderRadius : String
  stylePreset : String
  darkMode : Bool
  fontFamily : String
deriving Repr, DecidableEq

/-- `ComponentItem` from `types.ts` (one layout section).  The optional
`content : any` payload is never read by the core and is omitted. -/
structure ComponentItem where
  id : String
  type : String
deriving Repr, DecidableEq

/-- One configuration snapshot: the `{ theme, layout }` pair that
`saveToHistory`, `undo` and `redo` store and restore. -/
structure Snapshot where
  theme : ThemeConfig
  layout : List ComponentItem
deriving Repr, DecidableEq

/-- The `history` state: `past` (oldest first) and `future`
(nearest-undone first). -/
structure HistoryState where
  past : List Snapshot
  future : List Snapshot
deriving Repr, DecidableEq

/-- The three `useState` pieces of the `App` component that the core
mutates: the live theme, the live layout and the history buffers. -/
structure AppState where
  theme : ThemeConfig
  layout : List ComponentItem
  history : HistoryState
deriving Repr, DecidableEq

/-- `DEFAULT_THEME` from the source. -/
def DEFAULT_THEME : ThemeConfig :=
  { primaryColor := "#3b82f6", borderRadius := "16px", stylePreset := "modern",
    darkMode := false, fontFamily := "Inter" }

/-- The initial layout: header, hero, features with ids "1","2","3". -/
def initLayout : List ComponentItem :=
  [{ id := "1", type := "header" }, { id := "2", type := "hero" },
   { id := "3", type := "features" }]

/-- The application start state: default theme, 3-item layout, empty history. -/
def initState : AppState :=
  { theme := DEFAULT_THEME, layout := initLayout, history := { past := [], future := [] } }

/-- The deep copy `{ theme: JSON.parse(JSON.stringify(theme)), layout: ... }`
of the current live state (a value copy in the embedding). -/
def mkSnap (st : AppState) : Snapshot := { theme := st.theme, layout := st.layout }

/-- The body of `saveToHistory` acting on `past`: append the snapshot, and
if the result exceeds 30 entries do a single `shift()` (drop the front). -/
def pushCapped (past : List Snapshot) (s : Snapshot) : List Snapshot :=
  let newPast := past ++ [s]
  if newPast.length > 30 then newPast.tail else newPast

/-- `saveToHistory`: record the current live snapshot in `past` (capped at
30 by a front eviction) and clear `future`. -/
def saveToHistory (st : AppState) : AppState :=
  { st with history := { past := pushCapped st.history.past (mkSnap st), future := [] } }

/-- `undo`: no-op on empty `past`; otherwise pop the last `past` entry,
push a copy of the current live snapshot onto the front of `future`, and
make the popped entry live. -/
def undo (st : AppState) : AppState :=
  if h : st.history.past = [] then st
  else
    let previous := st.history.past.getLast h
    { theme := previous.theme, layout := previous.layout,
      history := { past := st.history.past.dropLast,
                   future := mkSnap st :: st.history.future } }

/-- `redo`: no-op on empty `future`; otherwise shift the first `future`
entry, append a copy of the current live snapshot to `past` (with no cap
check in the source), and make the shifted entry live. -/
def redo (st : AppState) : AppState :=
  match st.history.future with
  | [] => st
  | next :: rest =>
      { theme := next.theme, layout := next.layout,
        history := { past := st.history.past ++ [mkSnap st], future := rest } }

/-- A partial theme update (`Partial<ThemeConfig>`): absent fields are `none`. -/
structure PartialTheme where
  primaryColor : Option String := none
  borderRadius : Option String := none
  stylePreset : Option String := none
  darkMode : Option Bool := none
  fontFamily : Option String := none
deriving Repr, DecidableEq

/-- The object spread `{ ...prev, ...updates }`: provided fields replace,
absent fields are kept. -/
def mergeTheme (prev : ThemeConfig) (u : PartialTheme) : ThemeConfig :=
  { primaryColor := u.primaryColor.getD prev.primaryColor,
    borderRadius := u.borderRadius.getD prev.borderRadius,
    stylePreset := u.stylePreset.getD prev.stylePreset,
    darkMode := u.darkMode.getD prev.darkMode,
    fontFamily := u.fontFamily.getD prev.fontFamily }

/-- The bare `setTheme` state setter (no checkpoint). -/
def setTheme (st : AppState) (t : ThemeConfig) : AppState := { st with theme := t }

/-- The bare `setLayout` state setter (no checkpoint). -/
def setLayout (st : AppState) (l : List ComponentItem) : AppState := { st with layout := l }

/-- `updateTheme`: checkpoint, then merge the partial update into the live theme. -/
def updateTheme (st : AppState) (updates : PartialTheme) : AppState :=
  let st1 := saveToHistory st
  { st1 with theme := mergeTheme st1.theme updates }

/-- `addComponent`: checkpoint, then append a new item; the
`Math.random()` id is passed in explicitly. -/
def addComponent (st : AppState) (newId : String) (ty : String) : AppState :=
  let st1 := saveToHistory st
  { st1 with layout := st1.layout ++ [{ id := newId, type := ty }] }

/-- The pure layout part of `removeComponent`:
`layout.filter(item => item.id !== id)`. -/
def removeSection (layout : List ComponentItem) (id : String) : List ComponentItem :=
  layout.filter (fun item => item.id != id)

/-- `removeComponent`: checkpoint, then filter the live layout. -/
def removeComponent (st : AppState) (id : String) : AppState :=
  let st1 := saveToHistory st
  { st1 with layout := removeSection st1.layout id }

/-- A generic checkpointed mutation: `saveToHistory()` immediately
followed by setting the live snapshot to `m`.  `updateTheme`,
`addComponent` and `removeComponent` are all of this shape. -/
def applyMutate (st : AppState) (m : Snapshot) : AppState :=
  let st1 := saveToHistory st
  { st1 with theme := m.theme, layout := m.layout }

/-- The operations that touch the history buffers. -/
inductive Op where
  | mutate (m : Snapshot)
  | undoOp
  | redoOp
deriving Repr, DecidableEq

/-- One step of the history state machine. -/
def applyOp (st : AppState) (op : Op) : AppState :=
  match op with
  | .mutate m => applyMutate st m
  | .undoOp => undo st
  | .redoOp => redo st

/-- Run a sequence of operations from a state. -/
def run (st : AppState) (ops : List Op) : AppState := ops.foldl applyOp st

/-- Run a sequence of checkpointed mutations from a state. -/
def runMut (st : AppState) (ms : List Snapshot) : AppState := ms.foldl applyMutate st

/-- The pre-mutation snapshots of the mutation sequence `ms` started at
`st`: the snapshot recorded by the checkpoint preceding each mutation. -/
def preSnaps (st : AppState) (ms : List Snapshot) : List Snapshot :=
  (mkSnap st :: ms).dropLast

/-- The last `n` elements of a list (all of it when it is shorter). -/
def lastN (n : Nat) (l : List Snapshot) : List Snapshot := l.drop (l.length - n)

/-- A parsed import document.  `handleFileImport` tests `data.theme &&
data.layout`: a structurally absent (or null) field is `none`. -/
structure ImportDoc where
  theme : Option ThemeConfig
  layout : Option (List ComponentItem)
deriving Repr, DecidableEq

/-- `handleFileImport` after JSON parsing: when both fields are present,
checkpoint and replace the live snapshot wholesale; otherwise leave all
state untouched and surface the alert message as the failure signal. -/
def handleFileImport (st : AppState) (doc : ImportDoc) : AppState × Option String :=
  match doc.theme, doc.layout with
  | some t, some l =>
      let st1 := saveToHistory st
      ({ st1 with theme := t, layout := l }, none)
  | _, _ => (st, some "Invalid configuration file. Missing theme or layout data.")

/-- The result of `autoConfigureTheme`: a partial theme plus an optional
list of recommended section-type tokens (all fields optional; the
failure path returns the all-`none` record). -/
structure AutoConfig where
  primaryColor : Option String
  stylePreset : Option String
  borderRadius : Option String
  darkMode : Option Bool
  components : Option (List String)
deriving Repr, DecidableEq

/-- JavaScript truthiness of a string-or-undefined field: absent and
the empty string are falsy. -/
def truthyStr : Option String → Bool
  | none => false
  | some s => s != ""

/-- The guard `config.components && config.components.length > 0`. -/
def truthyComponents : Option (List String) → Bool
  | none => false
  | some cs => decide (0 < cs.length)

/-- The JavaScript `x || d` fallback on a string-or-undefined field. -/
def orDefault (o : Option String) (d : String) : String :=
  match o with
  | some s => if s = "" then d else s
  | none => d

/-- `config.components.map(c => ({ id: Math.random()..., type: c }))`,
with the random id supply passed in as `idGen`. -/
def buildLayout (idGen : Nat → String) : Nat → List String → List ComponentItem
  | _, [] => []
  | n, c :: cs => { id := idGen n, type := c } :: buildLayout idGen (n + 1) cs

/-- `handleAutoConfig`: if the result has a truthy primary color or a
non-empty recommended-section list, checkpoint once, then conditionally
apply the theme fields (with `|| 'modern'`, `|| '16px'`, `?? false`
fallbacks) and conditionally replace the layout; otherwise do nothing. -/
def handleAutoConfig (idGen : Nat → String) (st : AppState) (config : AutoConfig) : AppState :=
  if truthyStr config.primaryColor || truthyComponents config.components then
    let st1 := saveToHistory st
    let st2 :=
      match config.primaryColor with
      | some c =>
          if c = "" then st1
          else
            { st1 with theme :=
              { primaryColor := c,
                stylePreset := orDefault config.stylePreset "modern",
                borderRadius := orDefault config.borderRadius "16px",
                darkMode := config.darkMode.getD false,
                fontFamily := st1.theme.fontFamily } }
      | none => st1
    match config.components with
    | some cs => if 0 < cs.length then { st2 with layout := buildLayout idGen 0 cs } else st2
    | none => st2
  else st

/-- Modelled from the spec: `removeSection(id)` as the spec words it,
removing only the first `SectionItem` whose id matches (for refinement
comparison against the source's `filter`-based `removeSection`). -/
def removeSectionFirst : List ComponentItem → String → List ComponentItem
  | [], _ => []
  | x :: xs, id => if x.id = id then xs else x :: removeSectionFirst xs id

/-- A sample stored snapshot used for concrete counterexamples and witnesses. -/
def snapA : Snapshot := { theme := DEFAULT_THEME, layout := [] }

/-- A history state with a full `past` (30 entries) and a non-empty
`future`: the configuration the redo-cap claim speaks about. -/
def c3CexState : AppState :=
  { theme := DEFAULT_THEME, layout := initLayout,
    history := { past := List.replicate 30 snapA, future := [snapA] } }

/-- A history state whose `past` already holds 31 entries (beyond the
invariant), where a single `shift()` cannot bring it back to 30. -/
def c4CexState : AppState :=
  { theme := DEFAULT_THEME, layout := initLayout,
    history := { past := List.replicate 31 snapA, future := [] } }

/-- A layout with a duplicated id, reachable through `handleFileImport`. -/
def dupLayout : List ComponentItem :=
  [{ id := "1", type := "header" }, { id := "1", type := "hero" }]

/-- The all-`none` auto-configuration result (the failure path of
`autoConfigureTheme` produces exactly this). -/
def emptyConfig : AutoConfig :=
  { primaryColor := none, stylePreset := none, borderRadius := none,
    darkMode := none, components := none }

/-- A fixed id supply for concrete witnesses. -/
def constIds : Nat → String := fun _ => "id"

/-- A reachable-style state with one undone entry, used as a concrete
redo witness: empty `past`, one `future` entry. -/
def c3WitState : AppState :=
  { theme := DEFAULT_THEME, layout := initLayout,
    history := { past := [], future := [snapA] } }

/-! ## Helper lemmas -/

theorem lastN_of_le {l : List Snapshot} {n : Nat} (h : l.length ≤ n) : lastN n l = l := by
  unfold lastN
  have h0 : l.length - n = 0 := Nat.sub_eq_zero_of_le h
  simp [h0]

theorem lastN_length (n : Nat) (l : List Snapshot) :
    (lastN n l).length = l.length - (l.length - n) := by
  simp [lastN]

theorem lastN_append_lastN (n : Nat) (a r : List Snapshot) :
    lastN n (lastN n a ++ r) = lastN n (a ++ r) := by
  rcases le_or_lt a.length n with h | h
  · rw [lastN_of_le h]
  · unfold lastN
    rw [List.drop_append_eq_append_drop, List.drop_append_eq_append_drop,
        List.drop_drop]
    simp only [List.length_append, List.length_drop]
    congr 1
    · congr 1
      omega
    · congr 1
      omega

theorem pushCapped_eq_lastN {l : List Snapshot} (h : l.length ≤ 30) (x : Snapshot) :
    pushCapped l x = lastN 30 (l ++ [x]) := by
  unfold pushCapped lastN
  simp only [List.length_append, List.length_cons, List.length_nil]
  by_cases h1 : l.length + 1 > 30
  · have h30 : l.length = 30 := by omega
    rw [if_pos (by omega)]
    have : l.length + 0 + 1 - 30 = 1 := by omega
    rw [this, List.drop_one]
  · rw [if_neg (by omega)]
    have : l.length + 0 + 1 - 30 = 0 := by omega
    rw [this, List.drop_zero]

theorem pushCapped_length {l : List Snapshot} (h : l.length ≤ 30) (x : Snapshot) :
    (pushCapped l x).length = min (l.length + 1) 30 := by
  unfold pushCapped
  by_cases h1 : (l ++ [x]).length > 30
  · rw [if_pos h1]
    simp at h1 ⊢
    omega
  · rw [if_neg h1]
    simp at h1 ⊢
    omega

theorem pushCapped_length_le {l : List Snapshot} (h : l.length ≤ 30) (x : Snapshot) :
    (pushCapped l x).length ≤ 30 := by
  rw [pushCapped_length h]
  omega

theorem pushCapped_getLast? (l : List Snapshot) (x : Snapshot) :
    (pushCapped l x).getLast? = some x := by
  unfold pushCapped
  by_cases h1 : (l ++ [x]).length > 30
  · rw [if_pos h1]
    cases l with
    | nil => simp at h1
    | cons a as => simp [List.getLast?_concat]
  · rw [if_neg h1]
    simp [List.getLast?_concat]

theorem pushCapped_ne_nil (l : List Snapshot) (x : Snapshot) :
    pushCapped l x ≠ [] := by
  intro h0
  have := pushCapped_getLast? l x
  rw [h0] at this
  simp at this

/-- The inductive invariant of the history buffers: the total number of
stored snapshots never exceeds 30. -/
def histInv (st : AppState) : Prop :=
  st.history.past.length + st.history.future.length ≤ 30

theorem histInv_applyOp {st : AppState} (h : histInv st) (op : Op) :
    histInv (applyOp st op) := by
  unfold histInv at h ⊢
  cases op with
  | mutate m =>
      simp only [applyOp, applyMutate, saveToHistory]
      have := pushCapped_length (show st.history.past.length ≤ 30 by omega) (mkSnap st)
      simp only [List.length_nil]
      omega
  | undoOp =>
      simp only [applyOp, undo]
      by_cases h0 : st.history.past = []
      · rw [dif_pos h0]
        omega
      · rw [dif_neg h0]
        simp only [List.length_dropLast, List.length_cons]
        have hpos : 0 < st.history.past.length := List.length_pos.mpr h0
        omega
  | redoOp =>
      simp only [applyOp, redo]
      cases hf : st.history.future with
      | nil => simpa using h
      | cons nx rest =>
          rw [hf] at h
          simp only [List.length_append, List.length_cons, List.length_nil] at h ⊢
          omega

theorem histInv_run {st : AppState} (h : histInv st) (ops : List Op) :
    histInv (run st ops) := by
  induction ops generalizing st with
  | nil => exact h
  | cons op ops ih =>
      have h1 : run st (op :: ops) = run (applyOp st op) ops := by
        simp [run]
      rw [h1]
      exact ih (histInv_applyOp h op)

theorem histInv_initState : histInv initState := by
  simp [histInv, initState]

theorem runMut_eq_run (st : AppState) (ms : List Snapshot) :
    runMut st ms = run st (ms.map Op.mutate) := by
  induction ms generalizing st with
  | nil => rfl
  | cons m ms ih =>
      simp only [runMut, run, List.map_cons, List.foldl_cons] at ih ⊢
      exact ih (applyMutate st m)

theorem runMut_cons (st : AppState) (m : Snapshot) (ms : List Snapshot) :
    runMut st (m :: ms) = runMut (applyMutate st m) ms := by
  simp [runMut]

theorem runMut_append_one (st : AppState) (ms : List Snapshot) (m : Snapshot) :
    runMut st (ms ++ [m]) = applyMutate (runMut st ms) m := by
  simp [runMut]

theorem mkSnap_applyMutate (st : AppState) (m : Snapshot) :
    mkSnap (applyMutate st m) = m := rfl

theorem preSnaps_nil (st : AppState) : preSnaps st [] = [] := rfl

theorem preSnaps_cons (st : AppState) (m : Snapshot) (ms : List Snapshot) :
    preSnaps st (m :: ms) = mkSnap st :: preSnaps (applyMutate st m) ms := rfl

theorem preSnaps_length (st : AppState) (ms : List Snapshot) :
    (preSnaps st ms).length = ms.length := by
  simp [preSnaps]

/-- Characterization of the `past` buffer after a run of checkpointed
mutations: the most recent (at most 30) pre-mutation snapshots, in
chronological order, appended after what survives of the starting `past`. -/
theorem runMut_past {ms : List Snapshot} {st : AppState}
    (h : st.history.past.length ≤ 30) :
    (runMut st ms).history.past = lastN 30 (st.history.past ++ preSnaps st ms) := by
  induction ms generalizing st with
  | nil =>
      rw [preSnaps_nil, List.append_nil, lastN_of_le h]
      rfl
  | cons m ms ih =>
      rw [runMut_cons, preSnaps_cons]
      have hpast : (applyMutate st m).history.past = pushCapped st.history.past (mkSnap st) := rfl
      have hle : (applyMutate st m).history.past.length ≤ 30 := by
        rw [hpast]
        exact pushCapped_length_le h (mkSnap st)
      rw [ih hle, hpast, pushCapped_eq_lastN h, lastN_append_lastN]
      rw [List.append_assoc]
      rfl

theorem mkSnap_undo {st : AppState} {p : Snapshot}
    (h : st.history.past.getLast? = some p) : mkSnap (undo st) = p := by
  have hne : st.history.past ≠ [] := by
    intro h0
    rw [h0] at h
    simp at h
  have hlast : st.history.past.getLast hne = p := by
    rw [List.getLast?_eq_getLast _ hne] at h
    exact Option.some.inj h
  unfold undo
  rw [dif_neg hne]
  simp only [mkSnap]
  rw [hlast]

theorem undo_future {st : AppState} (hne : st.history.past ≠ []) :
    (undo st).history.future = mkSnap st :: st.history.future := by
  unfold undo
  rw [dif_neg hne]

theorem undo_past {st : AppState} (hne : st.history.past ≠ []) :
    (undo st).history.past = st.history.past.dropLast := by
  unfold undo
  rw [dif_neg hne]

theorem redo_of_future_cons {st : AppState} {nx : Snapshot} {rest : List Snapshot}
    (h : st.history.future = nx :: rest) :
    redo st = { theme := nx.theme, layout := nx.layout,
                history := { past := st.history.past ++ [mkSnap st], future := rest } } := by
  unfold redo
  rw [h]

theorem mkSnap_redo_of_future_cons {st : AppState} {nx : Snapshot} {rest : List Snapshot}
    (h : st.history.future = nx :: rest) : mkSnap (redo st) = nx := by
  rw [redo_of_future_cons h]
  rfl

theorem saveToHistory_past (st : AppState) :
    (saveToHistory st).history.past = pushCapped st.history.past (mkSnap st) := rfl

theorem applyMutate_past (st : AppState) (m : Snapshot) :
    (applyMutate st m).history.past = pushCapped st.history.past (mkSnap st) := rfl

theorem applyMutate_future (st : AppState) (m : Snapshot) :
    (applyMutate st m).history.future = [] := rfl

/-- `updateTheme` is the generic checkpointed mutation at the merged theme. -/
theorem updateTheme_eq_applyMutate (st : AppState) (u : PartialTheme) :
    updateTheme st u = applyMutate st { theme := mergeTheme st.theme u, layout := st.layout } := rfl

/-- `addComponent` is the generic checkpointed mutation at the extended layout. -/
theorem addComponent_eq_applyMutate (st : AppState) (newId ty : String) :
    addComponent st newId ty =
      applyMutate st { theme := st.theme,
                       layout := st.layout ++ [{ id := newId, type := ty }] } := rfl

/-- `removeComponent` is the generic checkpointed mutation at the filtered layout. -/
theorem removeComponent_eq_applyMutate (st : AppState) (id : String) :
    removeComponent st id =
      applyMutate st { theme := st.theme, layout := removeSection st.layout id } := rfl

theorem removeSection_of_forall_ne {l : List ComponentItem} {id : String}
    (h : ∀ it ∈ l, it.id ≠ id) : removeSection l id = l := by
  induction l with
  | nil => rfl
  | cons a as ih =>
      have ha : a.id ≠ id := h a (List.mem_cons_self a as)
      have hb : (a.id != id) = true := bne_iff_ne.mpr ha
      simp only [removeSection, List.filter_cons, hb, if_pos]
      have := ih (fun it hit => h it (List.mem_cons_of_mem a hit))
      simpa [removeSection] using this

theorem removeSection_eq_first_of_nodup {l : List ComponentItem} {id : String}
    (h : (l.map (fun it => it.id)).Nodup) :
    removeSection l id = removeSectionFirst l id := by
  induction l with
  | nil => rfl
  | cons a as ih =>
      rw [List.map_cons, List.nodup_cons] at h
      by_cases hid : a.id = id
      · have hb : (a.id != id) = false := by simp [hid]
        simp only [removeSection, List.filter_cons, hb, Bool.false_eq_true,
          if_false, removeSectionFirst, if_pos hid]
        show removeSection as id = as
        refine removeSection_of_forall_ne (fun it hit heq => ?_)
        exact h.1 (List.mem_map.mpr ⟨it, hit, by rw [heq, hid]⟩)
      · have hb : (a.id != id) = true := bne_iff_ne.mpr hid
        simp only [removeSection, List.filter_cons, hb, if_true,
          removeSectionFirst, if_neg hid]
        rw [show as.filter (fun item => item.id != id) = removeSection as id from rfl,
            ih h.2]

/-! ## Claim theorems -/

/-- Claim C1 (undo/redo inverse law): after any non-empty sequence of
checkpointed mutations, one `undo()` makes the live snapshot equal to the
snapshot recorded just before the last mutation (the live snapshot at
that moment), and `redo()` immediately afterwards restores the snapshot
that was live right before the `undo()`. -/
theorem undo_redo_inverse (s : AppState) (ms : List Snapshot) (m : Snapshot) :
    mkSnap (undo (runMut s (ms ++ [m]))) = mkSnap (runMut s ms) ∧
    mkSnap (redo (undo (runMut s (ms ++ [m])))) = mkSnap (runMut s (ms ++ [m])) := by
  have hrun : runMut s (ms ++ [m]) = applyMutate (runMut s ms) m := runMut_append_one s ms m
  have hpast : (runMut s (ms ++ [m])).history.past.getLast? = some (mkSnap (runMut s ms)) := by
    rw [hrun, applyMutate_past]
    exact pushCapped_getLast? _ _
  have hne : (runMut s (ms ++ [m])).history.past ≠ [] := by
    rw [hrun, applyMutate_past]
    exact pushCapped_ne_nil _ _
  have hfut : (undo (runMut s (ms ++ [m]))).history.future
      = mkSnap (runMut s (ms ++ [m])) :: (runMut s (ms ++ [m])).history.future :=
    undo_future hne
  exact ⟨mkSnap_undo hpast, mkSnap_redo_of_future_cons hfut⟩

/-- Claim C2 (bounded history): every state reachable from the initial
state by checkpointed mutations, undos and redos has `past.length ≤ 30`;
and after more than 30 checkpointed mutations, `past` holds exactly the
30 most recent pre-mutation snapshots in chronological order. -/
theorem bounded_history :
    (∀ ops : List Op, (run initState ops).history.past.length ≤ 30) ∧
    (∀ ms : List Snapshot, 30 < ms.length →
      (runMut initState ms).history.past = lastN 30 (preSnaps initState ms) ∧
      (runMut initState ms).history.past.length = 30) := by
  constructor
  · intro ops
    have h := histInv_run histInv_initState ops
    unfold histInv at h
    omega
  · intro ms hlen
    have h := @runMut_past ms initState (by decide)
    have hnil : initState.history.past = [] := rfl
    rw [hnil, List.nil_append] at h
    refine ⟨h, ?_⟩
    rw [h, lastN_length, preSnaps_length]
    omega

/-- Witness for C2 at a concrete run of 31 checkpointed mutations. -/
theorem bounded_history_witness :
    30 < (List.replicate 31 snapA).length ∧
    (runMut initState (List.replicate 31 snapA)).history.past.length = 30 :=
  ⟨by decide, (bounded_history.2 (List.replicate 31 snapA) (by decide)).2⟩

/-- Claim C3, counterexample: from a state whose `past` already holds 30
entries and whose `future` is non-empty, `redo()` leaves `past` with 31
entries — the source performs no cap eviction on redo, so the claimed
"resulting past never has more than 30 entries" is false at this state. -/
theorem redo_cap_cex :
    (redo c3CexState).history.past.length = 31 ∧
    ¬ (redo c3CexState).history.past.length ≤ 30 := by
  constructor <;> decide

/-- Claim C3 as amended: `redo()` on a non-empty `future` shifts the
first entry off `future`, appends a copy of the current live snapshot to
the end of `past` with no cap check, and makes the shifted entry live;
for every state satisfying the invariant `past.length + future.length ≤ 30`
(true of all reachable states), the resulting `past` still has at most
30 entries. -/
theorem redo_no_cap (st : AppState) (hf : st.history.future ≠ []) (hinv : histInv st) :
    (redo st).history.past = st.history.past ++ [mkSnap st] ∧
    (redo st).history.future = st.history.future.tail ∧
    st.history.future.head? = some (mkSnap (redo st)) ∧
    (redo st).history.past.length ≤ 30 := by
  unfold histInv at hinv
  cases hfe : st.history.future with
  | nil => exact absurd hfe hf
  | cons nx rest =>
      have hr := redo_of_future_cons hfe
      refine ⟨by rw [hr], by rw [hr]; rfl, ?_, ?_⟩
      · rw [mkSnap_redo_of_future_cons hfe]
        rfl
      · rw [hr]
        rw [hfe] at hinv
        simp only [List.length_append, List.length_cons, List.length_nil] at hinv ⊢
        omega

/-- Witness for the amended C3 at a concrete state with one undone entry. -/
theorem redo_no_cap_witness :
    (redo c3WitState).history.past = c3WitState.history.past ++ [mkSnap c3WitState] ∧
    (redo c3WitState).history.future = c3WitState.history.future.tail ∧
    c3WitState.history.future.head? = some (mkSnap (redo c3WitState)) ∧
    (redo c3WitState).history.past.length ≤ 30 :=
  redo_no_cap c3WitState (by decide) (by unfold histInv; decide)

/-- Claim C4, counterexample: on a state whose `past` already holds 31
entries, `saveToHistory` performs only a single front eviction, leaving
31 entries rather than the claimed "evict until exactly 30". -/
theorem checkpoint_cex :
    (saveToHistory c4CexState).history.past.length = 31 ∧
    (saveToHistory c4CexState).history.past.length ≠ 30 := by
  constructor <;> decide

/-- Claim C4 as amended: for every state with `past.length ≤ 30` (the
invariant all operations maintain), `recordCheckpoint` appends a copy of
the live snapshot to `past`, evicting the front entry exactly when the
append exceeds 30 (leaving exactly 30); `future` is cleared and the live
snapshot is untouched unconditionally, so any checkpointed mutation —
in particular one performed after an `undo()` — leaves `future` empty. -/
theorem checkpoint_semantics (st : AppState) :
    (st.history.past.length ≤ 30 →
      (saveToHistory st).history.past = lastN 30 (st.history.past ++ [mkSnap st]) ∧
      (saveToHistory st).history.past.length = min (st.history.past.length + 1) 30) ∧
    (saveToHistory st).history.past.getLast? = some (mkSnap st) ∧
    (saveToHistory st).history.future = [] ∧
    (saveToHistory st).theme = st.theme ∧
    (saveToHistory st).layout = st.layout ∧
    (∀ m : Snapshot, (applyMutate st m).history.future = []) := by
  refine ⟨fun h => ⟨?_, ?_⟩, ?_, rfl, rfl, rfl, fun m => rfl⟩
  · rw [saveToHistory_past]
    exact pushCapped_eq_lastN h _
  · rw [saveToHistory_past]
    exact pushCapped_length h _
  · rw [saveToHistory_past]
    exact pushCapped_getLast? _ _

/-- Witness for the amended C4 at the initial state. -/
theorem checkpoint_semantics_witness :
    initState.history.past.length ≤ 30 ∧
    (saveToHistory initState).history.past
      = lastN 30 (initState.history.past ++ [mkSnap initState]) ∧
    (saveToHistory initState).history.past.length
      = min (initState.history.past.length + 1) 30 ∧
    (saveToHistory initState).history.future = [] :=
  ⟨by decide, ((checkpoint_semantics initState).1 (by decide)).1,
   ((checkpoint_semantics initState).1 (by decide)).2,
   (checkpoint_semantics initState).2.2.1⟩

/-- Claim C5 (no-op safety): `undo()` on an empty `past` and `redo()` on
an empty `future` return the state unchanged — `past`, `future` and the
live snapshot all untouched, with no error signalled (the operations are
total). -/
theorem history_noop_safety (st : AppState) :
    (st.history.past = [] → undo st = st) ∧
    (st.history.future = [] → redo st = st) := by
  constructor
  · intro h
    unfold undo
    rw [dif_pos h]
  · intro h
    unfold redo
    rw [h]

/-- Witness for C5 at the initial state (both stacks empty). -/
theorem history_noop_safety_witness :
    undo initState = initState ∧ redo initState = initState :=
  ⟨(history_noop_safety initState).1 rfl, (history_noop_safety initState).2 rfl⟩

/-- Claim C6 (import validation): a parsed document missing the theme
field or the layout field is rejected with a distinguishable failure
message and the state — live snapshot, `past` and `future` — is returned
entirely unchanged; nothing is partially applied. -/
theorem import_validation (st : AppState) (doc : ImportDoc)
    (h : doc.theme = none ∨ doc.layout = none) :
    (handleFileImport st doc).1 = st ∧ (handleFileImport st doc).2 ≠ none := by
  obtain ⟨dt, dl⟩ := doc
  simp only at h
  rcases h with h | h <;> subst h
  · cases dl <;> exact ⟨rfl, by simp [handleFileImport]⟩
  · cases dt <;> exact ⟨rfl, by simp [handleFileImport]⟩

/-- Witness for C6 at a document missing both fields. -/
theorem import_validation_witness :
    (handleFileImport initState { theme := none, layout := none }).1 = initState ∧
    (handleFileImport initState { theme := none, layout := none }).2 ≠ none :=
  import_validation initState _ (Or.inl rfl)

/-- Claim C7 (AI conditional apply): `handleAutoConfig` replaces the
layout only when at least one recommended section is present, applies
theme fields only when a primary color is present, and a result with
neither (in particular the empty failure result) changes nothing — no
history entry, same live snapshot. -/
theorem auto_config_conditional_apply (idGen : Nat → String) (st : AppState)
    (cfg : AutoConfig) :
    ((cfg.components = none ∨ cfg.components = some []) →
        (handleAutoConfig idGen st cfg).layout = st.layout) ∧
    (cfg.primaryColor = none → (handleAutoConfig idGen st cfg).theme = st.theme) ∧
    (cfg.primaryColor = none ∧ (cfg.components = none ∨ cfg.components = some []) →
        handleAutoConfig idGen st cfg = st) := by
  obtain ⟨pc, sp, br, dm, comps⟩ := cfg
  simp only
  refine ⟨?_, ?_, ?_⟩
  · intro hcomp
    rcases hcomp with h | h <;> subst h <;> cases pc with
    | none => rfl
    | some c =>
        by_cases hc : c = ""
        · subst hc
          rfl
        · have hb : (c != "") = true := bne_iff_ne.mpr hc
          simp [handleAutoConfig, truthyStr, truthyComponents, hb, hc, saveToHistory]
  · intro hpc
    subst hpc
    cases comps with
    | none => rfl
    | some cs =>
        by_cases h0 : 0 < cs.length <;>
          simp [handleAutoConfig, truthyStr, truthyComponents, h0, saveToHistory]
  · rintro ⟨hpc, hcomp⟩
    subst hpc
    rcases hcomp with h | h <;> subst h <;> rfl

/-- Witness for C7 at the empty failure result of `autoConfigureTheme`. -/
theorem auto_config_conditional_apply_witness :
    (handleAutoConfig constIds initState emptyConfig).layout = initState.layout ∧
    (handleAutoConfig constIds initState emptyConfig).theme = initState.theme ∧
    handleAutoConfig constIds initState emptyConfig = initState :=
  ⟨(auto_config_conditional_apply constIds initState emptyConfig).1 (Or.inl rfl),
   (auto_config_conditional_apply constIds initState emptyConfig).2.1 rfl,
   (auto_config_conditional_apply constIds initState emptyConfig).2.2 ⟨rfl, Or.inl rfl⟩⟩

/-- Claim C8, counterexample: on a layout with a duplicated id (reachable
through import), the source's `filter`-based removal deletes every match,
not only the first one as claimed. -/
theorem remove_section_cex :
    removeSection dupLayout "1" = [] ∧
    removeSection dupLayout "1" ≠ removeSectionFirst dupLayout "1" := by
  constructor <;> decide

/-- Claim C8 as amended: `removeSection(id)` removes every item whose id
matches — which coincides with removing the first match whenever the
layout's ids are distinct, as every id produced by the app is — and an id
matching no item leaves the layout entirely unchanged, without error. -/
theorem remove_section_amended (l : List ComponentItem) (id : String) :
    ((l.map (fun it => it.id)).Nodup → removeSection l id = removeSectionFirst l id) ∧
    ((∀ it ∈ l, it.id ≠ id) → removeSection l id = l) :=
  ⟨fun h => removeSection_eq_first_of_nodup h, fun h => removeSection_of_forall_ne h⟩

/-- Witness for the amended C8 on the default layout. -/
theorem remove_section_amended_witness :
    ((initLayout.map (fun it => it.id)).Nodup ∧
      removeSection initLayout "1" = removeSectionFirst initLayout "1") ∧
    ((∀ it ∈ initLayout, it.id ≠ "9") ∧ removeSection initLayout "9" = initLayout) :=
  ⟨⟨by decide, (remove_section_amended initLayout "1").1 (by decide)⟩,
   ⟨by decide, (remove_section_amended initLayout "9").2 (by decide)⟩⟩

/-- Claim C9 (snapshot independence): after the checkpoint inside
`updateTheme`, the entry just recorded in `past` is the pre-mutation
snapshot — its `primaryColor` is the old live value whatever the update
contains — and the bare live setters never touch the history buffers, so
mutating the live configuration never alters a stored snapshot. -/
theorem snapshot_independence (st : AppState) (u : PartialTheme) :
    (updateTheme st u).history.past.getLast? = some (mkSnap st) ∧
    ((updateTheme st u).history.past.getLast?).map (fun sn => sn.theme.primaryColor)
      = some st.theme.primaryColor ∧
    (∀ t, (setTheme st t).history = st.history) ∧
    (∀ l, (setLayout st l).history = st.history) := by
  have h1 : (updateTheme st u).history.past.getLast? = some (mkSnap st) := by
    rw [updateTheme_eq_applyMutate, applyMutate_past]
    exact pushCapped_getLast? _ _
  refine ⟨h1, ?_, fun t => rfl, fun l => rfl⟩
  rw [h1]
  rfl

/-- Claim C10: an auto-configuration result carrying a primary color but
omitting `stylePreset`, `borderRadius` and `darkMode` resets those live
theme fields to `"modern"`, `"16px"` and `false`; only `fontFamily` is
carried over from the previous live theme. -/
theorem auto_config_theme_defaults (idGen : Nat → String) (st : AppState)
    (cfg : AutoConfig) (c : String) (hc : cfg.primaryColor = some c) (hne : c ≠ "")
    (hs : cfg.stylePreset = none) (hb : cfg.borderRadius = none)
    (hd : cfg.darkMode = none) :
    (handleAutoConfig idGen st cfg).theme =
      { primaryColor := c, borderRadius := "16px", stylePreset := "modern",
        darkMode := false, fontFamily := st.theme.fontFamily } := by
  obtain ⟨pc, sp, br, dm, comps⟩ := cfg
  simp only at hc hs hb hd
  subst hc hs hb hd
  have hbne : (c != "") = true := bne_iff_ne.mpr hne
  cases comps with
  | none =>
      simp [handleAutoConfig, truthyStr, truthyComponents, hbne, orDefault,
        saveToHistory, hne]
  | some cs =>
      by_cases h0 : 0 < cs.length <;>
        simp [handleAutoConfig, truthyStr, truthyComponents, hbne, orDefault,
          saveToHistory, hne, h0]

/-- Witness for C10 at a concrete color-only result. -/
theorem auto_config_theme_defaults_witness :
    (handleAutoConfig constIds initState
        { primaryColor := some "#000000", stylePreset := none, borderRadius := none,
          darkMode := none, components := none }).theme =
      { primaryColor := "#000000", borderRadius := "16px", stylePreset := "modern",
        darkMode := false, fontFamily := initState.theme.fontFamily } :=
  auto_config_theme_defaults constIds initState _ "#000000" rfl (by decide) rfl rfl rfl
